import Mathlib

/-!
Shallow embedding of the two scripts of the `notetools` repository:
`addFrontMatter.py` (frontmatter injector) and `imagePasteChk.py`
(image reference reconciler).  File contents are Lean `String`s,
directory structure is explicit data, and the outcome of fallible
I/O operations (read, write, listdir) is recorded by boolean flags
on the modelled filesystem objects.  Printing to the console is not
modelled; the record lists, counters and the report row list are.
-/

/-- Model of Python `str.startswith(pre)`: the characters of `pre`
are a prefix of the characters of `s`. -/
def pyStartswith (s pre : String) : Bool :=
  pre.data.isPrefixOf s.data

/-- Model of Python `str.endswith(suf)`: the characters of `suf`
are a suffix of the characters of `s`. -/
def pyEndswith (s suf : String) : Bool :=
  suf.data.reverse.isPrefixOf s.data.reverse

/-- Model of Python `str.lower()` (ASCII case folding; the filenames
involved are ASCII). -/
def pyLower (s : String) : String :=
  String.mk (s.data.map Char.toLower)

/-- Model of the Python substring test `needle in hay`: `needle`
occurs contiguously in `hay` (an empty needle always occurs). -/
def listHasInfix (needle : List Char) : List Char → Bool
  | [] => needle.isEmpty
  | c :: cs => needle.isPrefixOf (c :: cs) || listHasInfix needle cs

/-- String version of `listHasInfix`, modelling `needle in hay`. -/
def strContains (hay needle : String) : Bool :=
  listHasInfix needle.data hay.data

/-- Model of `os.path.basename` for POSIX paths: the characters after
the last slash. -/
def pyBasename (p : String) : String :=
  String.mk ((p.data.reverse.takeWhile (fun c => c ≠ '/')).reverse)

namespace AddFrontMatter

/-- A `.txt` file as seen by `addFrontMatter.py`: its name, its
current content, and whether opening it for reading (resp. writing)
succeeds.  A `False` flag models the corresponding `except` branch of
`add_frontmatter_to_file` being taken. -/
structure FMFile where
  name : String
  content : String
  readOk : Bool
  writeOk : Bool
deriving DecidableEq

/-- The frontmatter f-string built at lines 30-38 of
`addFrontMatter.py`. -/
def frontmatter (category title : String) : String :=
  "---\nlayout: general\ntitle: " ++ title ++ "\ncategories: [" ++ category
    ++ "]\ntags: []\nauthor: Michael Magistro\n---\n\n"

/-- Embedding of `add_frontmatter_to_file` (lines 7-51): read the
content (on failure return `False`); if it starts with `---` skip and
return `False`; otherwise prepend the frontmatter and write back,
returning `True` on success and `False` on a write error (in which
case the file is unchanged in this model). -/
def add_frontmatter_to_file (f : FMFile) (category title : String) :
    FMFile × Bool :=
  if f.readOk = false then (f, false)
  else if pyStartswith f.content "---" then (f, false)
  else if f.writeOk then
    ({ f with content := frontmatter category title ++ f.content }, true)
  else (f, false)

/-- Embedding of `extract_title_from_filename` (lines 54-64): the
complete filename is the title. -/
def extract_title_from_filename (filename : String) : String :=
  filename

/-- The folder handed to the injector's `process_folder`: existence
and directory flags, and the `.txt` files found by `folder.glob`. -/
structure FMFolder where
  exists_ : Bool
  isDir : Bool
  txtFiles : List FMFile
deriving DecidableEq

/-- The per-file loop of `process_folder` (lines 99-105): each file is
handled by `add_frontmatter_to_file` with its own name as title, a
`True` return bumps `processed_count`, a `False` return bumps
`skipped_count`.  Returns the updated files and the two counters. -/
def processLoop (category : String) : List FMFile → List FMFile × Nat × Nat
  | [] => ([], 0, 0)
  | f :: rest =>
    let title := extract_title_from_filename f.name
    let r := add_frontmatter_to_file f category title
    let rec_ := processLoop category rest
    (r.1 :: rec_.1,
     (if r.2 then rec_.2.1 + 1 else rec_.2.1),
     (if r.2 then rec_.2.2 else rec_.2.2 + 1))

/-- Embedding of the injector's `process_folder` (lines 67-110): three
early returns (folder missing, not a directory, no `.txt` files) leave
everything untouched with zero counters; otherwise the loop runs over
all files.  Returns the updated folder and the
`(processed_count, skipped_count)` pair. -/
def process_folder (folder : FMFolder) (category : String) :
    FMFolder × Nat × Nat :=
  if folder.exists_ = false then (folder, 0, 0)
  else if folder.isDir = false then (folder, 0, 0)
  else if folder.txtFiles.isEmpty then (folder, 0, 0)
  else
    let r := processLoop category folder.txtFiles
    ({ folder with txtFiles := r.1 }, r.2.1, r.2.2)

end AddFrontMatter

namespace ImagePasteChk

/-- A text file met during the walk in `imagePasteChk.py`: name,
content, and whether opening it succeeds (the `except` branch of
`find_image_references` yields no references). -/
structure NoteFile where
  name : String
  content : String
  readOk : Bool
deriving DecidableEq

/-- One `(root, dirs, files)` entry of `os.walk`; only `root` and the
plain files are used by the script. -/
structure WalkEntry where
  root : String
  files : List NoteFile
deriving DecidableEq

/-- A configured folder as seen by `imagePasteChk.py`.
`imagepasteFiles` lists the names `n` for which
`os.path.isfile(folder_path/imagepaste/n)` holds;
`imagepasteListing` is the `os.listdir` result for the `imagepaste`
subfolder, and `imagepasteListingOk` is `false` when that `listdir`
raises (its `except` branch). -/
structure RFolder where
  path : String
  exists_ : Bool
  walk : List WalkEntry
  imagepasteFiles : List String
  imagepasteExists : Bool
  imagepasteListingOk : Bool
  imagepasteListing : List String
deriving DecidableEq

/-- The literal path piece `imagepaste/` of the regex
`!\[([^\]]*)\]\(imagepaste/([^)]+)\)`. -/
def imagepasteLit : List Char := "imagepaste/".data

/-- Attempt to match the tail `\[([^\]]*)\]\(imagepaste/([^)]+)\)` of
the image regex at the very beginning of `cs` (the leading `!` has
already been consumed).  Greedy character classes bounded by a literal
have a unique match, so the regex engine's behaviour at a fixed start
position is this deterministic scan.  Returns the captured filename
(group 2, the part the script keeps) and the remainder of the input
after the match. -/
def matchAfterBang : List Char → Option (List Char × List Char)
  | '[' :: cs1 =>
    match cs1.dropWhile (fun c => c ≠ ']') with
    | ']' :: '(' :: cs3 =>
      if imagepasteLit.isPrefixOf cs3 then
        let cs4 := cs3.drop imagepasteLit.length
        let name := cs4.takeWhile (fun c => c ≠ ')')
        match cs4.dropWhile (fun c => c ≠ ')') with
        | ')' :: cs6 => if name.isEmpty then none else some (name, cs6)
        | _ => none
      else none
    | _ => none
  | _ => none

/-- One full match of `matchAfterBang` consumes at least one character
besides the leading `!`, so an input's length bounds the number of
scanning steps; `findRefsAux` therefore recurses on an explicit fuel
that callers instantiate with the input length.  This mirrors
`re.findall`: try each position left to right, and on a match continue
after its end (non-overlapping matches). -/
def findRefsAux : Nat → List Char → List (List Char)
  | 0, _ => []
  | _, [] => []
  | fuel + 1, c :: cs =>
    if c = '!' then
      match matchAfterBang cs with
      | some (name, rest) => name :: findRefsAux fuel rest
      | none => findRefsAux fuel cs
    else findRefsAux fuel cs

/-- Embedding of `find_image_references` (lines 14-32): scan the file
content with the image regex and keep the second capture group of
every match; a read error yields the empty list. -/
def find_image_references (f : NoteFile) : List String :=
  if f.readOk then
    (findRefsAux f.content.data.length f.content.data).map String.mk
  else []

/-- Embedding of `check_image_exists` (lines 35-41): the referenced
name is an existing regular file under the folder's `imagepaste`
subfolder. -/
def check_image_exists (folder : RFolder) (image_name : String) : Bool :=
  folder.imagepasteFiles.contains image_name

/-- A `(folder_name, file, image, status)` row appended by the
reconciler's `process_folder` or by `main`'s missing-folder branch. -/
structure RefRecord where
  folder : String
  file : String
  image : String
  status : String
deriving DecidableEq

/-- Model of `os.path.relpath(p, base)` for the only case the script
meets: `p` lies below `base`, so the `base/` prefix is stripped. -/
def relpath (p base : String) : String :=
  if (base ++ "/").data.isPrefixOf p.data then
    String.mk (p.data.drop (base ++ "/").data.length)
  else p

/-- The records produced for one `.txt` file of the walk (lines
66-78): one record per extracted reference, with status `Found` or
`Missing` according to `check_image_exists`. -/
def scanFile (folder : RFolder) (root : String) (f : NoteFile) :
    List RefRecord :=
  (find_image_references f).map (fun image_name =>
    { folder := pyBasename folder.path
      file := relpath (root ++ "/" ++ f.name) folder.path
      image := image_name
      status := if check_image_exists folder image_name
                then "Found" else "Missing" })

/-- The records produced for one walk entry whose root survived the
`'imagepaste' in root` test: every file whose lowercased name ends in
`.txt` is scanned. -/
def scanEntry (folder : RFolder) (e : WalkEntry) : List RefRecord :=
  e.files.flatMap (fun f =>
    if pyEndswith (pyLower f.name) ".txt" then scanFile folder e.root f
    else [])

/-- Embedding of the reconciler's `process_folder` (lines 44-80): on a
missing folder return no records; otherwise walk the tree, skip every
root containing the substring `imagepaste`, and scan the `.txt` files
of the remaining entries. -/
def process_folder (folder : RFolder) : List RefRecord :=
  if folder.exists_ = false then []
  else folder.walk.flatMap (fun e =>
    if strContains e.root "imagepaste" then [] else scanEntry folder e)

/-- The recognised image extensions of line 107. -/
def imageExts : List String :=
  [".png", ".jpg", ".jpeg", ".gif", ".bmp", ".svg"]

/-- Line 107: `file.lower().endswith((...))`, true when some listed
extension matches. -/
def isImageFile (name : String) : Bool :=
  imageExts.any (fun ext => pyEndswith (pyLower name) ext)

/-- An `(image_path, status)` row of the reverse check. -/
structure AssetRecord where
  path : String
  status : String
deriving DecidableEq

/-- Lexicographic comparison of character lists by code point, the
order Python uses to compare strings. -/
def charListLt : List Char → List Char → Bool
  | _, [] => false
  | [], _ :: _ => true
  | a :: as, b :: bs =>
    if a < b then true else if b < a then false else charListLt as bs

/-- Python's `<` on strings: lexicographic by code point. -/
def strLtB (a b : String) : Bool := charListLt a.data b.data

/-- Insert a string into a sorted list, keeping lexicographic order. -/
def insertStr (x : String) : List String → List String
  | [] => [x]
  | y :: ys => if strLtB x y then x :: y :: ys else y :: insertStr x ys

/-- Model of Python `sorted` on strings (lexicographic by code
point). -/
def sortStrings : List String → List String
  | [] => []
  | x :: xs => insertStr x (sortStrings xs)

/-- Embedding of `find_all_images_with_status` (lines 83-126): for
each existing folder with a readable `imagepaste` subfolder, list the
image files, sort them, and mark each one `referenced` when its name
occurs in the collected reference set and `orphaned` otherwise. -/
def find_all_images_with_status (folders : List RFolder)
    (referenced_images : List String) : List AssetRecord :=
  folders.flatMap (fun folder =>
    if folder.exists_ = false then []
    else if folder.imagepasteExists = false then []
    else if folder.imagepasteListingOk = false then []
    else
      (sortStrings (folder.imagepasteListing.filter isImageFile)).map
        (fun file =>
          { path := pyBasename folder.path ++ "/imagepaste/" ++ file
            status := if referenced_images.contains file
                      then "referenced" else "orphaned" }))

/-- The sentinel row appended by `main` (lines 153-155) for a
configured folder that does not exist. -/
def sentinel (folder : RFolder) : RefRecord :=
  { folder := pyBasename folder.path
    file := "FOLDER_NOT_FOUND"
    image := "N/A"
    status := "Folder does not exist" }

/-- The per-folder loop of `main` (lines 141-155): accumulate the
records of existing folders and the set of referenced image names
(modelled as a list queried only through membership), and append the
sentinel row for missing folders. -/
def mainScan (folders : List RFolder) : List RefRecord × List String :=
  folders.foldl
    (fun acc folder =>
      if folder.exists_ then
        let frs := process_folder folder
        (acc.1 ++ frs, acc.2 ++ frs.map (fun r => r.image))
      else (acc.1 ++ [sentinel folder], acc.2))
    ([], [])

/-- The rows written to `outputs/brokenimagelinks.txt` (lines
172-191), one list element per `writer.writerow` call, in order:
header, one row per reference record, an empty row, a `---` row,
another empty row, then one row per asset record. -/
def buildReport (all_results : List RefRecord)
    (all_images_status : List AssetRecord) : List (List String) :=
  let rows0 := [["Folder", "File", "Image", "Status"]]
  let rows1 := all_results.foldl
    (fun acc r => acc ++ [[r.folder, r.file, r.image, r.status]]) rows0
  let rows2 := rows1 ++ [[]] ++ [["---"]] ++ [[]]
  all_images_status.foldl (fun acc a => acc ++ [[a.path, a.status]]) rows2

/-- The five console summary counters of lines 196-207 plus the total
reference count of line 194. -/
structure Summary where
  total_refs : Nat
  found : Nat
  missing : Nat
  total_assets : Nat
  referenced : Nat
  orphaned : Nat
deriving DecidableEq

/-- Embedding of the summary computation (lines 194-207): `missing`
and `orphaned` count matching statuses, `found` and `referenced` are
the complements within the respective totals. -/
def summarize (all_results : List RefRecord)
    (all_images_status : List AssetRecord) : Summary :=
  let missing_count :=
    (all_results.filter (fun r => r.status = "Missing")).length
  let orphaned_count :=
    (all_images_status.filter (fun a => a.status = "orphaned")).length
  { total_refs := all_results.length
    found := all_results.length - missing_count
    missing := missing_count
    total_assets := all_images_status.length
    referenced := all_images_status.length - orphaned_count
    orphaned := orphaned_count }

/-- Embedding of `main` (lines 129-207) on a configured folder list:
the reference records with sentinels, the asset records computed from
the references collected across all folders, the report rows, and the
summary counters. -/
def main_model (folders : List RFolder) :
    List RefRecord × List AssetRecord × List (List String) × Summary :=
  let scan := mainScan folders
  let assets := find_all_images_with_status folders scan.2
  (scan.1, assets, buildReport scan.1 assets, summarize scan.1 assets)

end ImagePasteChk


namespace AddFrontMatter

/-- The body of the injector's per-file loop (lines 100-102), as the
file transformation it performs: `add_frontmatter_to_file` applied
with the file's own name as title. -/
def stepFile (category : String) (f : FMFile) : FMFile :=
  (add_frontmatter_to_file f category (extract_title_from_filename f.name)).1

/-- The boolean returned by the per-file loop body: `true` when the
file was processed, `false` when it was skipped. -/
def stepOk (category : String) (f : FMFile) : Bool :=
  (add_frontmatter_to_file f category (extract_title_from_filename f.name)).2

/-- Concrete file used to instantiate theorems: readable, writable,
with content not starting with the marker. -/
def wGood : FMFile :=
  { name := "note.txt", content := "hello", readOk := true, writeOk := true }

/-- Concrete file whose read raises, used to instantiate the
error-handling theorems. -/
def wBadRead : FMFile :=
  { name := "locked.txt", content := "hello", readOk := false,
    writeOk := true }

/-- Concrete folder holding `wGood` and `wBadRead`. -/
def wFolder : FMFolder :=
  { exists_ := true, isDir := true, txtFiles := [wGood, wBadRead] }

end AddFrontMatter

namespace ImagePasteChk

/-- The characters of one full match of the image regex with alt text
`alt` and captured filename `name`:
`!` `[` alt `]` `(` `imagepaste/` name `)`. -/
def tokenOf (alt name : List Char) : List Char :=
  '!' :: '[' :: (alt ++ ']' :: '(' :: (imagepasteLit ++ (name ++ [')'])))

/-- The contribution of one configured folder to `all_results` in
`main`'s loop (lines 141-155). -/
def recordsOf (folder : RFolder) : List RefRecord :=
  if folder.exists_ then process_folder folder else [sentinel folder]

/-- The contribution of one configured folder to the referenced-image
name collection in `main`'s loop (lines 146-149). -/
def refsOf (folder : RFolder) : List String :=
  if folder.exists_ then (process_folder folder).map (fun r => r.image)
  else []

/-- Concrete note referencing `a.png`, used to instantiate
theorems. -/
def wNote : NoteFile :=
  { name := "note.txt", content := "![](imagepaste/a.png)", readOk := true }

/-- Concrete walk entry holding `wNote`. -/
def wEntry : WalkEntry := { root := "/n/notesA", files := [wNote] }

/-- Concrete folder whose note references `a.png`, which exists in its
`imagepaste` subfolder next to the unreferenced `b.png`. -/
def wFolderA : RFolder :=
  { path := "/n/notesA", exists_ := true, walk := [wEntry],
    imagepasteFiles := ["a.png"], imagepasteExists := true,
    imagepasteListingOk := true, imagepasteListing := ["a.png", "b.png"] }

/-- Concrete folder with no notes whose `imagepaste` subfolder holds
`a.png` (referenced only from `wFolderA`) and `c.png` (orphaned). -/
def wFolderB : RFolder :=
  { path := "/n/notesB", exists_ := true,
    walk := [{ root := "/n/notesB", files := [] }],
    imagepasteFiles := [], imagepasteExists := true,
    imagepasteListingOk := true, imagepasteListing := ["a.png", "c.png"] }

/-- Concrete configured folder that does not exist. -/
def wMissing : RFolder :=
  { path := "/n/gone", exists_ := false, walk := [],
    imagepasteFiles := [], imagepasteExists := false,
    imagepasteListingOk := false, imagepasteListing := [] }

end ImagePasteChk


theorem isPrefixOf_append_left (l m : List Char) :
    l.isPrefixOf (l ++ m) = true := by
  induction l with
  | nil => simp
  | cons a as ih => simp [ih]

namespace AddFrontMatter

theorem frontmatter_marker (category title s : String) :
    pyStartswith (frontmatter category title ++ s) "---" = true := by
  have h0 : ("---\nlayout: general\ntitle: " : String).data
      = "---".data ++ ("\nlayout: general\ntitle: " : String).data := rfl
  have h1 : (frontmatter category title ++ s).data
      = "---".data
        ++ (("\nlayout: general\ntitle: " : String).data ++ title.data
          ++ ("\ncategories: [" : String).data ++ category.data
          ++ ("]\ntags: []\nauthor: Michael Magistro\n---\n\n" : String).data
          ++ s.data) := by
    simp [frontmatter, String.data_append, h0]
  unfold pyStartswith
  rw [h1]
  exact isPrefixOf_append_left _ _

theorem stepFile_readErr (category : String) (f : FMFile)
    (h : f.readOk = false) :
    stepFile category f = f ∧ stepOk category f = false := by
  simp [stepFile, stepOk, add_frontmatter_to_file, h]

theorem stepFile_writeErr (category : String) (f : FMFile)
    (h : f.writeOk = false) :
    stepFile category f = f ∧ stepOk category f = false := by
  by_cases hr : f.readOk = false
  · simp [stepFile, stepOk, add_frontmatter_to_file, hr]
  · by_cases hs : pyStartswith f.content "---" <;>
      simp [stepFile, stepOk, add_frontmatter_to_file, hr, hs, h]

theorem stepFile_idem (category : String) (f : FMFile) :
    stepFile category (stepFile category f) = stepFile category f := by
  by_cases hr : f.readOk = false
  · simp [stepFile, add_frontmatter_to_file, hr]
  · by_cases hs : pyStartswith f.content "---"
    · simp [stepFile, add_frontmatter_to_file, hr, hs]
    · by_cases hw : f.writeOk
      · simp [stepFile, add_frontmatter_to_file, extract_title_from_filename,
          hr, hs, hw, frontmatter_marker]
      · simp [stepFile, add_frontmatter_to_file, hr, hs, hw]

theorem stepOk_after_stepFile (category : String) (f : FMFile) :
    stepOk category (stepFile category f) = false := by
  by_cases hr : f.readOk = false
  · simp [stepFile, stepOk, add_frontmatter_to_file, hr]
  · by_cases hs : pyStartswith f.content "---"
    · simp [stepFile, stepOk, add_frontmatter_to_file, hr, hs]
    · by_cases hw : f.writeOk
      · simp [stepFile, stepOk, add_frontmatter_to_file,
          extract_title_from_filename, hr, hs, hw, frontmatter_marker]
      · simp [stepFile, stepOk, add_frontmatter_to_file, hr, hs, hw]

theorem processLoop_files (category : String) (fs : List FMFile) :
    (processLoop category fs).1 = fs.map (stepFile category) := by
  induction fs with
  | nil => rfl
  | cons f rest ih => simp [processLoop, stepFile, ih]

theorem processLoop_skipped (category : String) (fs : List FMFile) :
    (processLoop category fs).2.2
      = (fs.filter (fun g => !stepOk category g)).length := by
  induction fs with
  | nil => rfl
  | cons f rest ih =>
    have hstep : (add_frontmatter_to_file f category
        (extract_title_from_filename f.name)).2 = stepOk category f := rfl
    by_cases hok : stepOk category f <;>
      simp [processLoop, hstep, hok, List.filter_cons, ih]

theorem processLoop_processed (category : String) (fs : List FMFile) :
    (processLoop category fs).2.1
      = (fs.filter (fun g => stepOk category g)).length := by
  induction fs with
  | nil => rfl
  | cons f rest ih =>
    have hstep : (add_frontmatter_to_file f category
        (extract_title_from_filename f.name)).2 = stepOk category f := rfl
    by_cases hok : stepOk category f <;>
      simp [processLoop, hstep, hok, List.filter_cons, ih]

theorem process_folder_loop_branch (folder : FMFolder) (category : String)
    (he : folder.exists_ = true) (hd : folder.isDir = true)
    (hn : folder.txtFiles.isEmpty = false) :
    process_folder folder category
      = ({ folder with txtFiles := folder.txtFiles.map (stepFile category) },
         (folder.txtFiles.filter (fun g => stepOk category g)).length,
         (folder.txtFiles.filter (fun g => !stepOk category g)).length) := by
  simp [process_folder, he, hd, hn, processLoop_files, processLoop_processed,
    processLoop_skipped]

/-- C1: running the frontmatter injector's `process_folder` a second
time over the same folder changes no file content (every file written
on the first run begins with the `---` marker, so the second run skips
it), and the second run writes no file at all: its processed counter
is zero. -/
theorem injector_idempotent (folder : FMFolder) (category : String) :
    (process_folder (process_folder folder category).1 category).1
      = (process_folder folder category).1
    ∧ (process_folder (process_folder folder category).1 category).2.1 = 0 := by
  by_cases he : folder.exists_ = false
  · simp [process_folder, he]
  · by_cases hd : folder.isDir = false
    · simp [process_folder, he, hd]
    · by_cases hn : folder.txtFiles.isEmpty
      · simp [process_folder, he, hd, hn]
      · have he2 : folder.exists_ = true := by
          revert he; cases folder.exists_ <;> simp
        have hd2 : folder.isDir = true := by
          revert hd; cases folder.isDir <;> simp
        have hn2 : folder.txtFiles.isEmpty = false := by
          revert hn; cases folder.txtFiles.isEmpty <;> simp
        have h1 := process_folder_loop_branch folder category he2 hd2 hn2
        have hn3 : ((folder.txtFiles.map (stepFile category)).isEmpty) = false := by
          cases hf : folder.txtFiles with
          | nil => rw [hf] at hn2; simp at hn2
          | cons a l => simp
        have h2 := process_folder_loop_branch
          { folder with txtFiles := folder.txtFiles.map (stepFile category) }
          category (by simpa using he2) (by simpa using hd2) (by simpa using hn3)
        have hmap : (folder.txtFiles.map (stepFile category)).map (stepFile category)
            = folder.txtFiles.map (stepFile category) := by
          rw [List.map_map]
          exact List.map_congr_left (fun f _ => stepFile_idem category f)
        have hfil : (folder.txtFiles.map (stepFile category)).filter
            (fun g => stepOk category g) = [] := by
          rw [List.filter_eq_nil_iff]
          intro a ha
          obtain ⟨f, _, rfl⟩ := List.mem_map.mp ha
          simp [stepOk_after_stepFile]
        rw [h1]
        constructor
        · rw [h2]
          simp [hmap]
        · rw [h2]
          simp [hfil]

end AddFrontMatter

namespace AddFrontMatter

/-- C9: for a readable, writable file whose content does not start
with `---`, a successful injection writes back exactly the frontmatter
block concatenated with the original content: the new content starts
with `---` and the original content is an unchanged suffix of it. -/
theorem injection_prepends_block (f : FMFile) (category title : String)
    (hr : f.readOk = true) (hs : pyStartswith f.content "---" = false)
    (hw : f.writeOk = true) :
    (add_frontmatter_to_file f category title).1.content
        = frontmatter category title ++ f.content
    ∧ pyStartswith (add_frontmatter_to_file f category title).1.content
        "---" = true
    ∧ (add_frontmatter_to_file f category title).1.content.data
        = (frontmatter category title).data ++ f.content.data
    ∧ (add_frontmatter_to_file f category title).2 = true := by
  have hcontent : (add_frontmatter_to_file f category title).1.content
      = frontmatter category title ++ f.content := by
    simp [add_frontmatter_to_file, hr, hs, hw]
  refine ⟨hcontent, ?_, ?_, ?_⟩
  · rw [hcontent]; exact frontmatter_marker category title f.content
  · rw [hcontent]; exact String.data_append _ _
  · simp [add_frontmatter_to_file, hr, hs, hw]

/-- Witness for C9 at the concrete file `wGood`. -/
theorem injection_prepends_block_witness :
    (add_frontmatter_to_file wGood "personal" "note.txt").1.content
        = frontmatter "personal" "note.txt" ++ wGood.content
    ∧ pyStartswith (add_frontmatter_to_file wGood "personal" "note.txt").1.content
        "---" = true
    ∧ (add_frontmatter_to_file wGood "personal" "note.txt").1.content.data
        = (frontmatter "personal" "note.txt").data ++ wGood.content.data
    ∧ (add_frontmatter_to_file wGood "personal" "note.txt").2 = true :=
  injection_prepends_block wGood "personal" "note.txt" (by decide) (by decide)
    (by decide)

/-- C10: calling the injector's `process_folder` with a folder that
does not exist, is not a directory, or holds no `.txt` files returns
with the folder unchanged and both counters zero: no file is read or
modified. -/
theorem process_folder_early_return (folder : FMFolder) (category : String)
    (h : folder.exists_ = false ∨ folder.isDir = false
      ∨ folder.txtFiles = []) :
    process_folder folder category = (folder, 0, 0) := by
  rcases h with h | h | h
  · simp [process_folder, h]
  · by_cases he : folder.exists_ = false <;> simp [process_folder, he, h]
  · by_cases he : folder.exists_ = false
    · simp [process_folder, he]
    · by_cases hd : folder.isDir = false <;> simp [process_folder, he, hd, h]

/-- Witness for C10 at a concrete nonexistent folder. -/
theorem process_folder_early_return_witness :
    process_folder { exists_ := false, isDir := true, txtFiles := [wGood] }
        "personal"
      = ({ exists_ := false, isDir := true, txtFiles := [wGood] }, 0, 0) :=
  process_folder_early_return
    { exists_ := false, isDir := true, txtFiles := [wGood] } "personal"
    (Or.inl (by decide))

/-- C5: a file on which reading raises (or whose write raises after a
passed marker check) is left unchanged and its loop-body call returns
`False`; the loop handles every file independently of the others, and
its skipped counter counts exactly the files whose call returned
`False`.  Together: the error is caught, the file is counted as
skipped, not processed, and processing continues for all remaining
files. -/
theorem read_write_error_skips (category : String) (fs : List FMFile)
    (f : FMFile) (_hf : f ∈ fs)
    (herr : f.readOk = false
      ∨ (pyStartswith f.content "---" = false ∧ f.writeOk = false)) :
    (processLoop category fs).1 = fs.map (stepFile category)
    ∧ (processLoop category fs).2.2
        = (fs.filter (fun g => !stepOk category g)).length
    ∧ stepFile category f = f
    ∧ stepOk category f = false := by
  have hstep : stepFile category f = f ∧ stepOk category f = false := by
    rcases herr with h | ⟨h1, h2⟩
    · exact stepFile_readErr category f h
    · exact stepFile_writeErr category f h2
  exact ⟨processLoop_files category fs, processLoop_skipped category fs,
    hstep.1, hstep.2⟩

/-- Witness for C5 at the concrete folder contents
`[wGood, wBadRead]` with the read-error file `wBadRead`. -/
theorem read_write_error_skips_witness :
    (processLoop "personal" [wGood, wBadRead]).1
        = [wGood, wBadRead].map (stepFile "personal")
    ∧ (processLoop "personal" [wGood, wBadRead]).2.2
        = ([wGood, wBadRead].filter (fun g => !stepOk "personal" g)).length
    ∧ stepFile "personal" wBadRead = wBadRead
    ∧ stepOk "personal" wBadRead = false :=
  read_write_error_skips "personal" [wGood, wBadRead] wBadRead (by decide)
    (Or.inl (by decide))

end AddFrontMatter

theorem isPrefixOf_decomp : ∀ l₁ l₂ : List Char,
    l₁.isPrefixOf l₂ = true → l₂ = l₁ ++ l₂.drop l₁.length := by
  intro l₁
  induction l₁ with
  | nil => intro l₂ _; simp
  | cons a as ih =>
    intro l₂ h
    cases l₂ with
    | nil => simp [List.isPrefixOf] at h
    | cons b bs =>
      rw [List.isPrefixOf_cons₂] at h
      obtain ⟨hab, htail⟩ := Bool.and_eq_true_iff.mp h
      have hab2 : a = b := by simpa using hab
      subst hab2
      simpa using ih bs htail

namespace ImagePasteChk

theorem token_assemble (cs1 cs3 cs4 cs6 : List Char)
    (h1 : cs1.dropWhile (fun c => c ≠ ']') = ']' :: '(' :: cs3)
    (h2 : imagepasteLit.isPrefixOf cs3 = true)
    (h3 : cs4 = cs3.drop imagepasteLit.length)
    (h4 : cs4.dropWhile (fun c => c ≠ ')') = ')' :: cs6) :
    '!' :: '[' :: cs1
      = tokenOf (cs1.takeWhile (fun c => c ≠ ']'))
          (cs4.takeWhile (fun c => c ≠ ')')) ++ cs6 := by
  set at_ := cs1.takeWhile (fun c => c ≠ ']') with hat
  set nm := cs4.takeWhile (fun c => c ≠ ')') with hnm
  have e1 : cs1 = at_ ++ (']' :: '(' :: cs3) := by
    have e := (List.takeWhile_append_dropWhile (fun c => c ≠ ']') cs1).symm
    rw [h1] at e
    exact e
  have e3 : cs4 = nm ++ (')' :: cs6) := by
    have e := (List.takeWhile_append_dropWhile (fun c => c ≠ ')') cs4).symm
    rw [h4] at e
    exact e
  have e2 : cs3 = imagepasteLit ++ (nm ++ (')' :: cs6)) := by
    rw [← e3, h3]
    exact isPrefixOf_decomp _ _ h2
  rw [e1, e2]
  simp [tokenOf, List.append_assoc]

theorem matchAfterBang_sound (cs name rest : List Char)
    (h : matchAfterBang cs = some (name, rest)) :
    ∃ alt, (∀ a ∈ alt, a ≠ ']') ∧ name ≠ [] ∧ (∀ a ∈ name, a ≠ ')')
      ∧ '!' :: cs = tokenOf alt name ++ rest := by
  unfold matchAfterBang at h
  split at h
  next cs1 =>
    split at h
    next cs3 heq1 =>
      split at h
      next hpre =>
        simp only [] at h
        split at h
        next cs6 heq2 =>
          split at h
          next hne => exact absurd h (by simp)
          next hne =>
            obtain ⟨hname, hrest⟩ : (cs3.drop imagepasteLit.length).takeWhile
                (fun c => c ≠ ')') = name
                ∧ cs6 = rest := by
              have := Option.some.inj h
              exact ⟨congrArg Prod.fst this, congrArg Prod.snd this⟩
            refine ⟨cs1.takeWhile (fun c => c ≠ ']'), ?_, ?_, ?_, ?_⟩
            · intro a ha
              have := List.mem_takeWhile_imp ha
              simpa using this
            · rw [← hname]
              intro hcon
              rw [hcon] at hne
              simp at hne
            · intro a ha
              rw [← hname] at ha
              have := List.mem_takeWhile_imp ha
              simpa using this
            · rw [← hname, ← hrest]
              exact token_assemble cs1 cs3 _ cs6 heq1 hpre rfl heq2
        next heq2 => exact absurd h (by simp)
      next hpre => exact absurd h (by simp)
    next heq1 => exact absurd h (by simp)
  next hcs => exact absurd h (by simp)

theorem matchAfterBang_rest_le (cs name rest : List Char)
    (h : matchAfterBang cs = some (name, rest)) :
    rest.length ≤ cs.length := by
  obtain ⟨alt, _, _, _, heq⟩ := matchAfterBang_sound cs name rest h
  have hlen : ('!' :: cs).length = (tokenOf alt name ++ rest).length := by
    rw [heq]
  have hlit : imagepasteLit.length = 11 := rfl
  simp [tokenOf, List.length_append, hlit] at hlen
  omega

theorem findRefsAux_fuel_irrelevant (fuel1 : Nat) :
    ∀ (fuel2 : Nat) (cs : List Char),
      cs.length ≤ fuel1 → cs.length ≤ fuel2 →
      findRefsAux fuel1 cs = findRefsAux fuel2 cs := by
  induction fuel1 with
  | zero =>
    intro fuel2 cs h1 _
    have : cs = [] := by
      cases cs with
      | nil => rfl
      | cons c t => simp at h1
    subst this
    cases fuel2 <;> rfl
  | succ f ih =>
    intro fuel2 cs h1 h2
    cases cs with
    | nil => cases fuel2 <;> rfl
    | cons c t =>
      cases fuel2 with
      | zero => simp at h2
      | succ g =>
        by_cases hc : c = '!'
        · subst hc
          cases hm : matchAfterBang t with
          | none =>
            simp only [findRefsAux, hm, if_true, eq_self_iff_true]
            exact ih g t (by simpa using h1) (by simpa using h2)
          | some p =>
            obtain ⟨nm, rest⟩ := p
            have hr := matchAfterBang_rest_le t nm rest hm
            simp only [findRefsAux, hm, if_true, eq_self_iff_true]
            rw [ih g rest (by simp at h1; omega) (by simp at h2; omega)]
        · simp only [findRefsAux, if_neg hc]
          exact ih g t (by simpa using h1) (by simpa using h2)

theorem findRefsAux_sound : ∀ (fuel : Nat) (cs name : List Char),
    name ∈ findRefsAux fuel cs →
    ∃ alt pre post, (∀ a ∈ alt, a ≠ ']') ∧ name ≠ []
      ∧ (∀ a ∈ name, a ≠ ')')
      ∧ cs = pre ++ (tokenOf alt name ++ post) := by
  intro fuel
  induction fuel with
  | zero => intro cs name h; simp [findRefsAux] at h
  | succ f ih =>
    intro cs name h
    cases cs with
    | nil => simp [findRefsAux] at h
    | cons c t =>
      by_cases hc : c = '!'
      · subst hc
        cases hm : matchAfterBang t with
        | none =>
          rw [findRefsAux, if_pos rfl, hm] at h
          obtain ⟨alt, pre, post, hp1, hp2, hp3, heq⟩ := ih t name h
          exact ⟨alt, '!' :: pre, post, hp1, hp2, hp3, by simp [heq]⟩
        | some p =>
          obtain ⟨nm, rest⟩ := p
          rw [findRefsAux, if_pos rfl, hm] at h
          rcases List.mem_cons.mp h with hcase | hcase
          · subst hcase
            obtain ⟨alt, hp1, hp2, hp3, heq⟩ :=
              matchAfterBang_sound t name rest hm
            exact ⟨alt, [], rest, hp1, hp2, hp3, by simp [heq]⟩
          · obtain ⟨alt0, hq1, hq2, hq3, heq0⟩ :=
              matchAfterBang_sound t nm rest hm
            obtain ⟨alt, pre, post, hp1, hp2, hp3, heq⟩ := ih rest name hcase
            refine ⟨alt, tokenOf alt0 nm ++ pre, post, hp1, hp2, hp3, ?_⟩
            rw [heq0, heq]
            simp [List.append_assoc]
      · rw [findRefsAux, if_neg hc] at h
        obtain ⟨alt, pre, post, hp1, hp2, hp3, heq⟩ := ih t name h
        exact ⟨alt, c :: pre, post, hp1, hp2, hp3, by simp [heq]⟩

theorem find_image_references_sound (f : NoteFile) (name : String)
    (h : name ∈ find_image_references f) :
    f.readOk = true
    ∧ ∃ alt pre post, (∀ a ∈ alt, a ≠ ']') ∧ name.data ≠ []
      ∧ (∀ a ∈ name.data, a ≠ ')')
      ∧ f.content.data = pre ++ (tokenOf alt name.data ++ post) := by
  by_cases hr : f.readOk
  · refine ⟨hr, ?_⟩
    rw [find_image_references, if_pos hr] at h
    obtain ⟨l, hl, rfl⟩ := List.mem_map.mp h
    exact findRefsAux_sound _ _ _ hl
  · rw [find_image_references, if_neg hr] at h
    simp at h

theorem mem_insertStr (x y : String) (l : List String) :
    y ∈ insertStr x l ↔ y = x ∨ y ∈ l := by
  induction l with
  | nil => simp [insertStr]
  | cons a as ih =>
    by_cases hlt : strLtB x a
    · simp [insertStr, hlt]
    · simp [insertStr, hlt, ih]
      tauto

theorem mem_sortStrings (x : String) (l : List String) :
    x ∈ sortStrings l ↔ x ∈ l := by
  induction l with
  | nil => simp [sortStrings]
  | cons a as ih => simp [sortStrings, mem_insertStr, ih]

theorem mainScan_acc (folders : List RFolder) :
    ∀ acc : List RefRecord × List String,
      folders.foldl
        (fun acc folder =>
          if folder.exists_ then
            (acc.1 ++ process_folder folder,
             acc.2 ++ (process_folder folder).map (fun r => r.image))
          else (acc.1 ++ [sentinel folder], acc.2)) acc
        = (acc.1 ++ folders.flatMap recordsOf,
           acc.2 ++ folders.flatMap refsOf) := by
  induction folders with
  | nil => intro acc; simp
  | cons g gs ih =>
    intro acc
    by_cases hg : g.exists_ <;>
      simp [List.foldl_cons, hg, ih, recordsOf, refsOf, List.append_assoc]

theorem mainScan_eq (folders : List RFolder) :
    mainScan folders
      = (folders.flatMap recordsOf, folders.flatMap refsOf) := by
  have h := mainScan_acc folders ([], [])
  simpa [mainScan] using h

theorem mem_refsOf (g : RFolder) (name : String) :
    name ∈ refsOf g
      ↔ g.exists_ = true ∧ ∃ r ∈ process_folder g, r.image = name := by
  by_cases hg : g.exists_ <;> simp [refsOf, hg]

theorem foldl_append_rows {α : Type} (row : α → List String) (l : List α) :
    ∀ init : List (List String),
      l.foldl (fun acc r => acc ++ [row r]) init = init ++ l.map row := by
  induction l with
  | nil => intro init; simp
  | cons a as ih => intro init; simp [ih]

theorem buildReport_eq (results : List RefRecord)
    (assets : List AssetRecord) :
    buildReport results assets
      = [["Folder", "File", "Image", "Status"]]
        ++ results.map (fun r => [r.folder, r.file, r.image, r.status])
        ++ [[], ["---"], []]
        ++ assets.map (fun a => [a.path, a.status]) := by
  unfold buildReport
  rw [foldl_append_rows, foldl_append_rows]
  simp [List.append_assoc]

theorem flatMap_skip_filter {α β : Type} (p : α → Bool) (g : α → List β)
    (l : List α) :
    l.flatMap (fun e => if p e then [] else g e)
      = (l.filter (fun e => !p e)).flatMap g := by
  induction l with
  | nil => rfl
  | cons a as ih =>
    by_cases hp : p a <;> simp [List.filter_cons, hp, ih]

/-- C2: for a scanned `.txt` file, the reconciler emits exactly one
record per regex match of `![alt](imagepaste/x)` in its text (the
matches `re.findall` produces: leftmost, non-overlapping), with status
`Found` exactly when the referenced name is a regular file under the
folder's `imagepaste` subfolder and `Missing` otherwise; and every
extracted name comes from a genuine occurrence of the pattern in the
file's text. -/
theorem reference_record_per_match (folder : RFolder) (e : WalkEntry)
    (f : NoteFile) (hex : folder.exists_ = true)
    (hwalk : folder.walk = [e])
    (hroot : strContains e.root "imagepaste" = false)
    (hfiles : e.files = [f])
    (htxt : pyEndswith (pyLower f.name) ".txt" = true) :
    process_folder folder
      = (find_image_references f).map (fun image_name =>
          { folder := pyBasename folder.path
            file := relpath (e.root ++ "/" ++ f.name) folder.path
            image := image_name
            status := if check_image_exists folder image_name
                      then "Found" else "Missing" })
    ∧ (∀ r ∈ process_folder folder,
        (r.status = "Found" ↔ check_image_exists folder r.image = true)
        ∧ (r.status = "Missing" ↔ check_image_exists folder r.image = false))
    ∧ ∀ name ∈ find_image_references f,
        ∃ alt pre post, (∀ a ∈ alt, a ≠ ']') ∧ name.data ≠ []
          ∧ (∀ a ∈ name.data, a ≠ ')')
          ∧ f.content.data = pre ++ (tokenOf alt name.data ++ post) := by
  have hmap : process_folder folder
      = (find_image_references f).map (fun image_name =>
          { folder := pyBasename folder.path
            file := relpath (e.root ++ "/" ++ f.name) folder.path
            image := image_name
            status := if check_image_exists folder image_name
                      then "Found" else "Missing" }) := by
    rw [process_folder, if_neg (by simp [hex]), hwalk]
    simp [scanEntry, hroot, hfiles, htxt, scanFile]
  refine ⟨hmap, ?_, ?_⟩
  · intro r hr
    rw [hmap] at hr
    obtain ⟨nm, hnm, rfl⟩ := List.mem_map.mp hr
    by_cases hchk : check_image_exists folder nm
    · simp [hchk]
    · simp [hchk]
  · intro name hn
    exact (find_image_references_sound f name hn).2

/-- Witness for C2 at the concrete folder `wFolderA`, whose single
note references `a.png` and whose `imagepaste` subfolder holds it. -/
theorem reference_record_per_match_witness :
    process_folder wFolderA
      = (find_image_references wNote).map (fun image_name =>
          { folder := pyBasename wFolderA.path
            file := relpath (wEntry.root ++ "/" ++ wNote.name) wFolderA.path
            image := image_name
            status := if check_image_exists wFolderA image_name
                      then "Found" else "Missing" })
    ∧ (∀ r ∈ process_folder wFolderA,
        (r.status = "Found" ↔ check_image_exists wFolderA r.image = true)
        ∧ (r.status = "Missing"
            ↔ check_image_exists wFolderA r.image = false))
    ∧ ∀ name ∈ find_image_references wNote,
        ∃ alt pre post, (∀ a ∈ alt, a ≠ ']') ∧ name.data ≠ []
          ∧ (∀ a ∈ name.data, a ≠ ')')
          ∧ wNote.content.data = pre ++ (tokenOf alt name.data ++ post) :=
  reference_record_per_match wFolderA wEntry wNote rfl rfl (by decide) rfl
    (by decide)

/-- C6 counterexample: a walk directory named `imagepaste_backup` is
not the folder's `imagepaste` subfolder, yet its `.txt` file (which
does contain an image reference) produces no record, because the code
skips every root containing the substring `imagepaste`. -/
theorem walk_skip_counterexample :
    process_folder
        { path := "/notes", exists_ := true,
          walk := [{ root := "/notes/imagepaste_backup",
                     files := [{ name := "note.txt",
                                 content := "![a](imagepaste/x.png)",
                                 readOk := true }] }],
          imagepasteFiles := ["x.png"], imagepasteExists := true,
          imagepasteListingOk := true, imagepasteListing := ["x.png"] }
      = []
    ∧ "/notes/imagepaste_backup" ≠ "/notes" ++ "/imagepaste"
    ∧ find_image_references
        { name := "note.txt", content := "![a](imagepaste/x.png)",
          readOk := true }
      = ["x.png"] := by
  refine ⟨by decide, by decide, by decide⟩

/-- C6 as amended: the walk skips exactly the directories whose path
contains the substring `imagepaste` (which covers the `imagepaste`
subfolder and its descendants, but also any other directory whose path
happens to contain that substring); every `.txt` file in every
directory whose path does not contain the substring is read and
scanned, each of its extracted references yielding a record. -/
theorem walk_skips_substring_roots (folder : RFolder)
    (hex : folder.exists_ = true) :
    process_folder folder
      = (folder.walk.filter
          (fun e => !strContains e.root "imagepaste")).flatMap
          (scanEntry folder)
    ∧ ∀ e ∈ folder.walk, strContains e.root "imagepaste" = false →
        ∀ f ∈ e.files, pyEndswith (pyLower f.name) ".txt" = true →
          ∀ name ∈ find_image_references f,
            ({ folder := pyBasename folder.path
               file := relpath (e.root ++ "/" ++ f.name) folder.path
               image := name
               status := if check_image_exists folder name then "Found"
                         else "Missing" } : RefRecord)
              ∈ process_folder folder := by
  have hpf : process_folder folder
      = folder.walk.flatMap (fun e =>
          if strContains e.root "imagepaste" then [] else scanEntry folder e) := by
    rw [process_folder, if_neg (by simp [hex])]
  constructor
  · rw [hpf, flatMap_skip_filter]
  · intro e he hroot f hf htxt name hn
    rw [hpf]
    refine List.mem_flatMap_of_mem he ?_
    rw [if_neg (by simp [hroot])]
    unfold scanEntry
    refine List.mem_flatMap_of_mem hf ?_
    rw [if_pos htxt]
    unfold scanFile
    exact List.mem_map_of_mem _ hn

/-- Witness for the amended C6 at the concrete folder `wFolderA`. -/
theorem walk_skips_substring_roots_witness :
    process_folder wFolderA
      = (wFolderA.walk.filter
          (fun e => !strContains e.root "imagepaste")).flatMap
          (scanEntry wFolderA)
    ∧ ∀ e ∈ wFolderA.walk, strContains e.root "imagepaste" = false →
        ∀ f ∈ e.files, pyEndswith (pyLower f.name) ".txt" = true →
          ∀ name ∈ find_image_references f,
            ({ folder := pyBasename wFolderA.path
               file := relpath (e.root ++ "/" ++ f.name) wFolderA.path
               image := name
               status := if check_image_exists wFolderA name then "Found"
                         else "Missing" } : RefRecord)
              ∈ process_folder wFolderA :=
  walk_skips_substring_roots wFolderA rfl

/-- C4: a nonexistent configured folder contributes exactly one
sentinel record to `all_results`, nothing to the referenced-image
collection, and the folders after it are still processed exactly as
they would have been. -/
theorem missing_folder_sentinel (pre post : List RFolder) (g : RFolder)
    (h : g.exists_ = false) :
    (mainScan (pre ++ g :: post)).1
      = (mainScan pre).1 ++ sentinel g :: (mainScan post).1
    ∧ (mainScan (pre ++ g :: post)).2
      = (mainScan pre).2 ++ (mainScan post).2 := by
  have hg : recordsOf g = [sentinel g] := by simp [recordsOf, h]
  have hg2 : refsOf g = [] := by simp [refsOf, h]
  constructor <;>
    simp [mainScan_eq, hg, hg2]

/-- Witness for C4: the missing folder `wMissing` between `wFolderA`
and `wFolderB`. -/
theorem missing_folder_sentinel_witness :
    (mainScan ([wFolderA] ++ wMissing :: [wFolderB])).1
      = (mainScan [wFolderA]).1
        ++ sentinel wMissing :: (mainScan [wFolderB]).1
    ∧ (mainScan ([wFolderA] ++ wMissing :: [wFolderB])).2
      = (mainScan [wFolderA]).2 ++ (mainScan [wFolderB]).2 :=
  missing_folder_sentinel [wFolderA] [wFolderB] wMissing rfl


theorem contains_iff_mem_str (l : List String) (x : String) :
    l.contains x = true ↔ x ∈ l := by
  simp

theorem find_all_mem_intro (folders : List RFolder) (refs : List String)
    (folder : RFolder) (file : String)
    (h1 : folder ∈ folders) (h2 : folder.exists_ = true)
    (h3 : folder.imagepasteExists = true)
    (h4 : folder.imagepasteListingOk = true)
    (h5 : file ∈ folder.imagepasteListing) (h6 : isImageFile file = true) :
    ({ path := pyBasename folder.path ++ "/imagepaste/" ++ file
       status := if refs.contains file then "referenced" else "orphaned" }
      : AssetRecord) ∈ find_all_images_with_status folders refs := by
  unfold find_all_images_with_status
  refine List.mem_flatMap_of_mem h1 ?_
  rw [if_neg (by simp [h2]), if_neg (by simp [h3]), if_neg (by simp [h4])]
  refine List.mem_map_of_mem _ ?_
  rw [mem_sortStrings]
  exact List.mem_filter.mpr ⟨h5, h6⟩

/-- C3: an image asset listed in any folder's `imagepaste` subfolder
with a recognized extension gets the status `referenced` exactly when
its filename occurs among the references extracted across all scanned
folders (not only the asset's own folder), and `orphaned` otherwise. -/
theorem asset_status_cross_folder (folders : List RFolder)
    (folder : RFolder) (file : String)
    (h1 : folder ∈ folders) (h2 : folder.exists_ = true)
    (h3 : folder.imagepasteExists = true)
    (h4 : folder.imagepasteListingOk = true)
    (h5 : file ∈ folder.imagepasteListing) (h6 : isImageFile file = true) :
    ({ path := pyBasename folder.path ++ "/imagepaste/" ++ file
       status := if ((mainScan folders).2).contains file then "referenced"
                 else "orphaned" } : AssetRecord)
      ∈ (main_model folders).2.1
    ∧ (((mainScan folders).2).contains file = true
        ↔ ∃ g ∈ folders, g.exists_ = true
            ∧ ∃ r ∈ process_folder g, r.image = file) := by
  constructor
  · have hassets : (main_model folders).2.1
        = find_all_images_with_status folders ((mainScan folders).2) := rfl
    rw [hassets]
    exact find_all_mem_intro folders _ folder file h1 h2 h3 h4 h5 h6
  · rw [mainScan_eq, contains_iff_mem_str]
    constructor
    · intro hmem
      obtain ⟨g, hg, hin⟩ := List.mem_flatMap.mp hmem
      obtain ⟨hge, r, hr, hi⟩ := (mem_refsOf g file).mp hin
      exact ⟨g, hg, hge, r, hr, hi⟩
    · intro ⟨g, hg, hge, r, hr, hi⟩
      exact List.mem_flatMap_of_mem hg
        ((mem_refsOf g file).mpr ⟨hge, r, hr, hi⟩)

/-- Witness for C3: the asset `a.png` of `wFolderB` is referenced only
from the note in `wFolderA`, yet its record in the combined run over
both folders carries the status `referenced`. -/
theorem asset_status_cross_folder_witness :
    ({ path := pyBasename wFolderB.path ++ "/imagepaste/" ++ "a.png"
       status := if ((mainScan [wFolderA, wFolderB]).2).contains "a.png"
                 then "referenced" else "orphaned" } : AssetRecord)
      ∈ (main_model [wFolderA, wFolderB]).2.1
    ∧ (((mainScan [wFolderA, wFolderB]).2).contains "a.png" = true
        ↔ ∃ g ∈ [wFolderA, wFolderB], g.exists_ = true
            ∧ ∃ r ∈ process_folder g, r.image = "a.png") :=
  asset_status_cross_folder [wFolderA, wFolderB] wFolderB "a.png"
    (by decide) rfl rfl rfl (by decide) (by decide)

/-- C7 counterexample: with no records at all the claim predicts two
report rows (the header and a single separator row), but the code
writes four: the header, an empty row, a `---` row, and another empty
row — the separator spans three `writerow` calls, not one. -/
theorem report_single_separator_counterexample :
    buildReport [] []
      = [["Folder", "File", "Image", "Status"], [], ["---"], []]
    ∧ (buildReport [] []).length ≠ 2 := by
  constructor
  · rfl
  · decide

/-- C7 as amended: the report rows are, in order, the header, one row
per reference record, a three-row separator (an empty row, a `---`
row, another empty row), then one row per asset record; and the five
summary counters are produced as the code computes them on every run,
sentinel rows included: `missing` counts the `all_results` rows with
status `Missing`, `found` is their complement within the row total,
`total assets` is the number of asset records, `orphaned` counts the
asset records with status `orphaned`, and `referenced` is their
complement within the asset total. -/
theorem report_layout_and_counts (results : List RefRecord)
    (assets : List AssetRecord) :
    buildReport results assets
      = [["Folder", "File", "Image", "Status"]]
        ++ results.map (fun r => [r.folder, r.file, r.image, r.status])
        ++ [[], ["---"], []]
        ++ assets.map (fun a => [a.path, a.status])
    ∧ (summarize results assets).missing
        = (results.filter (fun r => r.status = "Missing")).length
    ∧ (summarize results assets).found + (summarize results assets).missing
        = results.length
    ∧ (summarize results assets).total_assets = assets.length
    ∧ (summarize results assets).orphaned
        = (assets.filter (fun a => a.status = "orphaned")).length
    ∧ (summarize results assets).referenced
          + (summarize results assets).orphaned
        = assets.length := by
  refine ⟨buildReport_eq results assets, rfl, ?_, rfl, rfl, ?_⟩
  · have h : (results.filter (fun r => r.status = "Missing")).length
        ≤ results.length := List.length_filter_le _ _
    show results.length
          - (results.filter (fun r => r.status = "Missing")).length
          + (results.filter (fun r => r.status = "Missing")).length
        = results.length
    omega
  · have h : (assets.filter (fun a => a.status = "orphaned")).length
        ≤ assets.length := List.length_filter_le _ _
    show assets.length
          - (assets.filter (fun a => a.status = "orphaned")).length
          + (assets.filter (fun a => a.status = "orphaned")).length
        = assets.length
    omega

theorem mem_process_folder_status (g : RFolder) (r : RefRecord)
    (h : r ∈ process_folder g) :
    r.status = "Found" ∨ r.status = "Missing" := by
  by_cases hg : g.exists_ = false
  · rw [process_folder, if_pos hg] at h
    simp at h
  · rw [process_folder, if_neg hg] at h
    obtain ⟨e, _, hr⟩ := List.mem_flatMap.mp h
    by_cases hroot : strContains e.root "imagepaste"
    · rw [if_pos hroot] at hr
      simp at hr
    · rw [if_neg hroot] at hr
      unfold scanEntry at hr
      obtain ⟨f, _, hr2⟩ := List.mem_flatMap.mp hr
      by_cases htxt : pyEndswith (pyLower f.name) ".txt"
      · rw [if_pos htxt] at hr2
        unfold scanFile at hr2
        obtain ⟨nm, _, rfl⟩ := List.mem_map.mp hr2
        by_cases hchk : check_image_exists g nm <;> simp [hchk]
      · rw [if_neg htxt] at hr2
        simp at hr2

theorem mem_find_all_status (folders : List RFolder) (refs : List String)
    (a : AssetRecord) (h : a ∈ find_all_images_with_status folders refs) :
    a.status = "referenced" ∨ a.status = "orphaned" := by
  unfold find_all_images_with_status at h
  obtain ⟨g, _, ha⟩ := List.mem_flatMap.mp h
  by_cases h1 : g.exists_ = false
  · rw [if_pos h1] at ha; simp at ha
  · rw [if_neg h1] at ha
    by_cases h2 : g.imagepasteExists = false
    · rw [if_pos h2] at ha; simp at ha
    · rw [if_neg h2] at ha
      by_cases h3 : g.imagepasteListingOk = false
      · rw [if_pos h3] at ha; simp at ha
      · rw [if_neg h3] at ha
        obtain ⟨file, _, rfl⟩ := List.mem_map.mp ha
        by_cases hc : refs.contains file
        · left
          have hm : file ∈ refs := (contains_iff_mem_str refs file).mp hc
          simp [hm]
        · right
          have hm : file ∉ refs := fun hcon =>
            hc ((contains_iff_mem_str refs file).mpr hcon)
          simp [hm]

theorem find_all_contains_congr (folders : List RFolder)
    (refs refs2 : List String)
    (h : ∀ n, refs.contains n = refs2.contains n) :
    find_all_images_with_status folders refs
      = find_all_images_with_status folders refs2 := by
  unfold find_all_images_with_status
  simp only [h]

/-- C8: every reference record the scan emits carries exactly one of
the statuses `Found` and `Missing`, every asset record exactly one of
`referenced` and `orphaned`; the asset records are computed from the
folder listings and the collected reference names alone (any
reference collection with the same name membership produces the same
asset records), and the two record lists meet only positionally in
the report rows, each mapped to its own block unchanged. -/
theorem record_sets_independent (folders : List RFolder) :
    (∀ g ∈ folders, ∀ r ∈ process_folder g,
      (r.status = "Found" ∧ ¬r.status = "Missing")
      ∨ (r.status = "Missing" ∧ ¬r.status = "Found"))
    ∧ (∀ a ∈ (main_model folders).2.1,
      (a.status = "referenced" ∧ ¬a.status = "orphaned")
      ∨ (a.status = "orphaned" ∧ ¬a.status = "referenced"))
    ∧ (∀ refs refs2 : List String,
        (∀ n : String, refs.contains n = refs2.contains n) →
          find_all_images_with_status folders refs
            = find_all_images_with_status folders refs2)
    ∧ (main_model folders).2.1
        = find_all_images_with_status folders ((mainScan folders).2)
    ∧ (main_model folders).2.2.1
        = [["Folder", "File", "Image", "Status"]]
          ++ (main_model folders).1.map
              (fun r => [r.folder, r.file, r.image, r.status])
          ++ [[], ["---"], []]
          ++ (main_model folders).2.1.map (fun a => [a.path, a.status]) := by
  refine ⟨?_, ?_, ?_, rfl, ?_⟩
  · intro g _ r hr
    rcases mem_process_folder_status g r hr with h1 | h1
    · exact Or.inl ⟨h1, by rw [h1]; decide⟩
    · exact Or.inr ⟨h1, by rw [h1]; decide⟩
  · intro a ha
    have ha2 : a ∈ find_all_images_with_status folders ((mainScan folders).2) := ha
    rcases mem_find_all_status folders _ a ha2 with h1 | h1
    · exact Or.inl ⟨h1, by rw [h1]; decide⟩
    · exact Or.inr ⟨h1, by rw [h1]; decide⟩
  · exact find_all_contains_congr folders
  · have hreport : (main_model folders).2.2.1
        = buildReport (main_model folders).1 (main_model folders).2.1 := rfl
    rw [hreport]
    exact buildReport_eq _ _
